import Mathlib

/-!
Verification development for the drmock generator core
(`src/drmock/types.py`, `src/drmock/overload.py`, `src/drmock/utils.py`,
`src/drmock/generator.py`), shallowly embedded in Lean.

Python values are mapped as follows: `Type` objects (a union of a terminal
spelling string and a nested layer) become the two-constructor inductive
`CppType`; Python's falsy checks, list mutation loops and string methods are
modelled by explicit recursion; functions that can raise `IndexError`
(`Type.from_tokens` on token lists it cannot consume) return `Option`.
-/

namespace DrMock

/-- Embeds `types.Type` (types.py).  A Python `Type` whose `inner` field is a
string is `base spelling flags`; one whose `inner` field is another `Type` is
`layer inner flags`.  Field order: const, volatile, lvalue_ref, rvalue_ref,
pointer, parameter_pack. -/
inductive CppType where
  | base (spelling : String) (const volatile lvalue_ref rvalue_ref pointer parameter_pack : Bool)
  | layer (inner : CppType) (const volatile lvalue_ref rvalue_ref pointer parameter_pack : Bool)
deriving DecidableEq

namespace CppType

def const : CppType → Bool
  | base _ c _ _ _ _ _ => c
  | layer _ c _ _ _ _ _ => c

def volatileFlag : CppType → Bool
  | base _ _ v _ _ _ _ => v
  | layer _ _ v _ _ _ _ => v

def lvalue_ref : CppType → Bool
  | base _ _ _ l _ _ _ => l
  | layer _ _ _ l _ _ _ => l

def rvalue_ref : CppType → Bool
  | base _ _ _ _ r _ _ => r
  | layer _ _ _ _ r _ _ => r

def pointer : CppType → Bool
  | base _ _ _ _ _ p _ => p
  | layer _ _ _ _ _ p _ => p

def parameter_pack : CppType → Bool
  | base _ _ _ _ _ _ pk => pk
  | layer _ _ _ _ _ _ pk => pk

/-- `Type._is_naked` (types.py line 186). -/
def isNaked : CppType → Bool
  | base _ c v l r p pk => !(c || v || l || r || p || pk)
  | layer _ c v l r p pk => !(c || v || l || r || p || pk)

/-- `Type._get_simplified` with `first_pass=False` (types.py line 155): the
recursive pass returns the union value (string or `Type`) that gets stored
into the parent's `inner` attribute.  The leading while-loop that descends
through naked layers is fused into the recursion. -/
def simpAux : CppType → String ⊕ CppType
  | base s c v l r p pk =>
      if c || v || l || r || p || pk then .inr (base s c v l r p pk) else .inl s
  | layer u c v l r p pk =>
      if c || v || l || r || p || pk then
        .inr (match simpAux u with
              | .inl s => base s c v l r p pk
              | .inr w => layer w c v l r p pk)
      else simpAux u

/-- `Type._get_simplified` with `first_pass=True` (types.py line 155): the
public entry point.  A layer whose `inner` is a string is returned as-is
(even if naked); a naked layer with a `Type` inner is descended through; a
non-naked layer with a `Type` inner has its inner replaced by the recursive
pass. -/
def getSimplified : CppType → CppType
  | base s c v l r p pk => base s c v l r p pk
  | layer u c v l r p pk =>
      if c || v || l || r || p || pk then
        (match simpAux u with
         | .inl s => base s c v l r p pk
         | .inr w => layer w c v l r p pk)
      else getSimplified u

/-- `Type.get_decayed` (types.py line 128).  For a reference the cv
qualifiers are stripped from the inner layer (when the inner is a `Type`),
otherwise from the outer layer. -/
def getDecayed (t : CppType) : CppType :=
  let res := t.getSimplified
  let res2 :=
    if res.lvalue_ref || res.rvalue_ref then
      match res with
      | base s c v _ _ p pk => base s c v false false p pk
      | layer u c v _ _ p pk =>
          layer (match u with
                 | base s _ _ l' r' p' pk' => base s false false l' r' p' pk'
                 | layer u' _ _ l' r' p' pk' => layer u' false false l' r' p' pk')
            c v false false p pk
    else
      match res with
      | base s _ _ l r p pk => base s false false l r p pk
      | layer u _ _ l r p pk => layer u false false l r p pk
  res2.getSimplified

/-- The body of `Type.__str__` (types.py line 197) for one layer, given the
rendering of the inner value. -/
def renderCore (inner : String) (c v l r p pk : Bool) : String :=
  let x := inner ++ (if l then " &" else "") ++ (if r then " &&" else "")
  let y :=
    if p then x ++ " *" ++ (if c then " const" else "") ++ (if v then " volatile" else "")
    else (if c then "const " else "") ++ (if v then "volatile " else "") ++ x
  y ++ (if pk then " ..." else "")

/-- `Type.__str__` (types.py line 197). -/
def render : CppType → String
  | base s c v l r p pk => renderCore s c v l r p pk
  | layer u c v l r p pk => renderCore (render u) c v l r p pk

end CppType

/-! Tokenization.  `Type.from_spelling` runs Python's `spelling.split(" ")`
and `Type.from_tokens` re-joins leftover tokens with `" ".join(tokens)`.
`splitSpaceAux`/`joinSpace` model those two Python string methods. -/

def splitSpaceAux : List Char → List Char → List (List Char)
  | [], acc => [acc.reverse]
  | c :: cs, acc =>
      if c = ' ' then acc.reverse :: splitSpaceAux cs []
      else splitSpaceAux cs (c :: acc)

/-- Python `s.split(" ")`: splits at every single space, keeping empty
pieces. -/
def splitSpace (s : String) : List String :=
  (splitSpaceAux s.data []).map (fun l => ⟨l⟩)

/-- Python `" ".join(l)`. -/
def joinSpace : List String → String
  | [] => ""
  | [x] => x
  | x :: y :: xs => x ++ " " ++ joinSpace (y :: xs)

/-- State of the right-to-left scan of `Type.from_tokens` (types.py line
284): qualifier flags collected so far, the indirection marker that ended
the scan (if any), and the unconsumed tokens in reversed order. -/
structure ScanR where
  const : Bool
  volatileFlag : Bool
  pack : Bool
  pointer : Bool
  lref : Bool
  rref : Bool
  rest : List String
deriving DecidableEq

/-- The right-to-left scan of `Type.from_tokens`, operating on the reversed
token list.  Python indexes `tokens[-1]` unconditionally, so running out of
tokens mid-scan raises `IndexError`; that is the `none` case. -/
def scanR : List String → Bool → Bool → Bool → Option ScanR
  | [], _, _, _ => none
  | t :: ts, c, v, pk =>
      if t = "const" then scanR ts true v pk
      else if t = "volatile" then scanR ts c true pk
      else if t = "..." then scanR ts c v true
      else if t = "*" then some ⟨c, v, pk, true, false, false, ts⟩
      else if t = "&" then some ⟨c, v, pk, false, true, false, ts⟩
      else if t = "&&" then some ⟨c, v, pk, false, false, true, ts⟩
      else some ⟨c, v, pk, false, false, false, t :: ts⟩

/-- The left-to-right scan of `Type.from_tokens` (types.py line 317),
consuming leading `const`/`volatile` tokens.  Like the right scan it indexes
`tokens[0]` unconditionally, hence `Option`. -/
def scanL : List String → Bool → Bool → Option (Bool × Bool × List String)
  | [], _, _ => none
  | t :: ts, c, v =>
      if t = "const" then scanL ts true v
      else if t = "volatile" then scanL ts c true
      else some (c, v, t :: ts)

/-- `Type.from_tokens` (types.py line 278), written with explicit fuel so
that the recursion is structural.  Each recursive call is on a strictly
shorter token list, so `fuel = tokens.length` always suffices (see
`fromTokens`). -/
def fromTokensGo : Nat → List String → Option CppType
  | 0, _ => none
  | fuel + 1, toks => do
      let s ← scanR toks.reverse false false false
      if s.pointer || s.lref || s.rref then do
        let u ← fromTokensGo fuel s.rest.reverse
        pure (CppType.getSimplified
          (.layer u s.const s.volatileFlag s.lref s.rref s.pointer s.pack))
      else do
        let (c, v, rest) ← scanL s.rest.reverse s.const s.volatileFlag
        pure (CppType.getSimplified
          (.base (joinSpace rest) c v false false false s.pack))

/-- `Type.from_tokens` (types.py line 278). -/
def fromTokens (toks : List String) : Option CppType :=
  fromTokensGo toks.length toks

/-- `Type.from_spelling` (types.py line 331). -/
def fromSpelling (s : String) : Option CppType :=
  fromTokens (splitSpace s)

/-! Operator-name mangling (`types.py`). -/

/-- The ordered substitution table `_OPERATOR_SYMBOLS` (types.py line 36).
The source uses an `OrderedDict`; iteration order is the listed order. -/
def OPERATOR_SYMBOLS : List (String × String) :=
  [("<=>", "SpaceShip"),
   ("->*", "PointerToMember"),
   ("co_await", "CoAwait"),
   ("==", "Equal"),
   ("!=", "NotEqual"),
   ("<=", "LesserOrEqual"),
   (">=", "GreaterOrEqual"),
   ("<<", "StreamLeft"),
   (">>", "StreamRight"),
   ("&&", "And"),
   ("||", "Or"),
   ("++", "Increment"),
   ("--", "Decrement"),
   ("->", "Arrow"),
   ("()", "Call"),
   ("[]", "Brackets"),
   ("+", "Plus"),
   ("-", "Minus"),
   ("*", "Ast"),
   ("/", "Div"),
   ("%", "Modulo"),
   ("^", "Caret"),
   ("&", "Amp"),
   ("|", "Pipe"),
   ("~", "Tilde"),
   ("!", "Not"),
   ("=", "Assign"),
   ("<", "Lesser"),
   (">", "Greater"),
   (",", "Comma")]

/-- Python `s.replace(k, v)` on character lists: replace each left-most
non-overlapping occurrence of `k` by `v`.  Explicit fuel keeps the recursion
structural; fuel `s.length` always suffices since every step consumes at
least one character, and when the fuel runs out the remaining characters are
returned unchanged. -/
def pyReplaceGo (v : List Char) : Nat → List Char → List Char → List Char
  | 0, s, _ => s
  | _ + 1, [], _ => []
  | fuel + 1, c :: rest, k =>
      if k ≠ [] ∧ k.isPrefixOf (c :: rest) then
        v ++ pyReplaceGo v fuel ((c :: rest).drop k.length) k
      else c :: pyReplaceGo v fuel rest k

/-- Python `s.replace(k, v)` for a non-empty pattern `k` (every key of
`OPERATOR_SYMBOLS` is non-empty; Python's behaviour on an empty pattern is
different and not modelled). -/
def pyReplace (s k v : String) : String :=
  ⟨pyReplaceGo v.data s.data.length s.data k.data⟩

/-- `Method.mangled_name` (types.py line 501) as a function of the raw
name: fold the substitution table over the name in table order. -/
def mangle (name : String) : String :=
  OPERATOR_SYMBOLS.foldl (fun r kv => pyReplace r kv.1 kv.2) name

/-- Does `k` occur as a contiguous substring of `s`?  (Used to state when
Python `s.replace(k, v)` is the identity.) -/
def occursIn (k : List Char) : List Char → Bool
  | [] => k.isPrefixOf []
  | c :: rest => k.isPrefixOf (c :: rest) || occursIn k rest

/-- The operator-detection test of `Method.from_node` (types.py line 642):
a method name is an operator name iff deleting every occurrence of the
substring `"operator"` leaves a key of the substitution table. -/
def isOperatorName (name : String) : Bool :=
  (OPERATOR_SYMBOLS.map (·.1)).contains (pyReplace name "operator" "")

/-! Signature/class data model (`types.py`). -/

/-- `types.TemplateDecl`. -/
structure TemplateDecl where
  params : List String
deriving DecidableEq

/-- `TemplateDecl.get_args` (types.py line 353): a variadic parameter
written `"... X"` is swapped to `"X ..."` via `utils.swap`.  (For a
parameter starting with `"..."` but lacking the following space Python
raises; that case is unreachable for the declarations this generator builds
and is modelled as the identity.) -/
def TemplateDecl.getArgs (d : TemplateDecl) : List String :=
  d.params.map (fun p =>
    if ("... ").data.isPrefixOf p.data then String.mk (p.data.drop 4) ++ " ..." else p)

/-- `types.Method` (types.py line 454).  `params` holds `Type` objects (the
string-typed parameters Python allows only ever appear on freshly generated
output methods, which no theorem below inspects through this field). -/
structure Method where
  name : String
  params : List CppType := []
  return_type : CppType := .base "void" false false false false false false
  template : Option TemplateDecl := none
  const : Bool := false
  volatileFlag : Bool := false
  lvalue : Bool := false
  rvalue : Bool := false
  virtual : Bool := false
  pure_virtual : Bool := false
  overrideFlag : Bool := false
  noexceptFlag : Bool := false
  operator : Bool := false
  body : Option String := none
  access : String := "public"
deriving DecidableEq

/-- `Method.mangled_name` (types.py line 501). -/
def Method.mangledName (m : Method) : String := mangle m.name

/-- `types.TypeAlias` (types.py line 647).  The generator assigns an
`access` attribute dynamically; it is a plain field here. -/
structure TypeAlias where
  name : String
  typedef : String
  template : Option TemplateDecl := none
  access : String := "public"
deriving DecidableEq

/-- `types.Variable` (types.py line 862).  The `type` field is only ever a
rendered string at the use sites embedded here. -/
structure Variable where
  name : String
  type : String
  default_args : List String := []
  mutableFlag : Bool := false
  access : String := "public"
deriving DecidableEq

/-- `types.Constructor` (types.py line 401), with the parameters already
rendered to strings as at its generator call site. -/
structure Constructor where
  name : String
  params : List String := []
  template : Option TemplateDecl := none
  initializer_list : List String := []
  body : String := ""
  access : String := "public"
deriving DecidableEq

/-- `generator.Friend` (generator.py line 370). -/
structure Friend where
  name : String
  access : String := "public"
deriving DecidableEq

/-- One entry of `types.Class.members`: the heterogeneous Python list is a
tagged union here. -/
inductive Member where
  | typeAlias (a : TypeAlias)
  | method (m : Method)
  | var (v : Variable)
  | ctor (c : Constructor)
  | friendDecl (f : Friend)
deriving DecidableEq

/-- `types.Class` (types.py line 690). -/
structure Class where
  name : String
  enclosing_namespace : List String := []
  members : List Member := []
  finalFlag : Bool := false
  q_object : Bool := false
  parent : Option String := none
  template : Option TemplateDecl := none
deriving DecidableEq

/-- `utils.template` (utils.py line 14), applied to already-rendered
arguments. -/
def utilsTemplate (args : List String) : String :=
  "<" ++ String.intercalate ", " args ++ ">"

/-- `Class.full_name` (types.py line 721). -/
def Class.fullName (c : Class) : String :=
  String.join (c.enclosing_namespace.map (· ++ "::")) ++ c.name ++
    (match c.template with
     | some t => utilsTemplate t.getArgs
     | none => "")

/-- `Class.get_virtual_methods` (types.py line 730). -/
def Class.getVirtualMethods (c : Class) : List Method :=
  c.members.filterMap (fun mem =>
    match mem with
    | .method m => if m.virtual then some m else none
    | _ => none)

/-- `Class.get_type_aliases` (types.py line 735). -/
def Class.getTypeAliases (c : Class) : List TypeAlias :=
  c.members.filterMap (fun mem =>
    match mem with
    | .typeAlias a => some a
    | _ => none)

/-! `utils.split_by_condition` (utils.py line 45). -/

/-- The `values` accumulator loop of `split_by_condition`: the distinct key
values in order of first occurrence. -/
def firstOccVals {α κ : Type} [DecidableEq κ] (pred : α → κ) (seq : List α) : List κ :=
  seq.foldl (fun acc x => if pred x ∈ acc then acc else acc ++ [pred x]) []

/-- `utils.split_by_condition` (utils.py line 45): one filtered list per
distinct key value, in first-occurrence order. -/
def splitByCondition {α κ : Type} [DecidableEq κ] (pred : α → κ) (seq : List α) :
    List (List α) :=
  (firstOccVals pred seq).map (fun val => seq.filter (fun x => decide (pred x = val)))

/-! The overload engine (`overload.py`). -/

def MOCK_OBJECT_NAME : String := "mock"
def STATE_OBJECT_NAME : String := "DRMOCK_STATE_OBJECT_"
def CONST_ENUM : String := "::drmock::Const"
def VOLATILE_ENUM : String := "::drmock::Volatile"
def LVALUE_ENUM : String := "::drmock::LValueRef"
def RVALUE_ENUM : String := "::drmock::RValueRef"
def TYPE_CONTAINER : String := "::drmock::TypeContainer"
def PARAMETER_PACK : String := "... DRMOCK_Ts"

/-- `overload._dispatch_name` (overload.py line 256). -/
def dispatchName (mangled : String) : String := "DRMOCK_DISPATCH" ++ mangled

/-- `overload._shared_ptr_name` (overload.py line 252). -/
def sharedPtrName (mangled : String) (i : Nat) : String :=
  "DRMOCK_METHOD_PTR" ++ mangled ++ "_" ++ toString i

/-- `overload.Overload` (overload.py line 51). -/
structure Overload where
  parent : Class
  methods : List Method
deriving DecidableEq

namespace Overload

/-- Placeholder for Python's `IndexError` on `self._methods[0]` when the
method list is empty; every `Overload` the generator builds is non-empty
(spec section 7 treats an empty overload as an upstream defect). -/
def emptyMethod : Method := { name := "" }

/-- `self._methods[0]`, the representative of the overload. -/
def rep (ov : Overload) : Method := ov.methods.headD emptyMethod

/-- `Overload._overloaded` (overload.py line 200). -/
def overloaded (ov : Overload) : Bool := decide (1 < ov.methods.length)

/-- `Overload._all_same_params` (overload.py line 205). -/
def allSameParams (ov : Overload) : Bool :=
  ov.methods.all (fun m => decide (m.params = ov.rep.params))

/-- `Overload._all_same_qualifiers` (overload.py line 210): uniformity of
the `(const, lvalue, rvalue)` triple (volatile is not part of it). -/
def allSameQuals (ov : Overload) : Bool :=
  ov.methods.all (fun m =>
    decide ((m.const, m.lvalue, m.rvalue) = (ov.rep.const, ov.rep.lvalue, ov.rep.rvalue)))

/-- The qualifier markers `generate_getter` auto-appends when the group's
qualifiers are uniform (overload.py lines 90-96): const, lvalue, rvalue in
that order; volatile is never appended. -/
def getterAutoQuals (ov : Overload) : List String :=
  (if ov.methods.all (·.const) then [CONST_ENUM] else []) ++
  (if ov.methods.all (·.lvalue) then [LVALUE_ENUM] else []) ++
  (if ov.methods.all (·.rvalue) then [RVALUE_ENUM] else [])

/-- The `dispatch` list of `generate_getter` (overload.py lines 68-96),
with the `Type` entries rendered as `utils.template` renders them: shared
parameter types when uniform, then the template pack argument when
overloaded, then the auto-appended qualifier markers when uniform. -/
def getterDispatchArgs (ov : Overload) : List String :=
  (if ov.allSameParams then ov.rep.params.map CppType.render else []) ++
  (if ov.overloaded then (TemplateDecl.mk [PARAMETER_PACK]).getArgs else []) ++
  (if ov.allSameQuals then ov.getterAutoQuals else [])

/-- The `Type` value `types.Type.from_spelling("auto &")` evaluates to,
used as the getter's return type (see `fromSpelling_auto_amp`). -/
def autoAmpType : CppType := .base "auto" false false true false false false

/-- `Overload.generate_getter` (overload.py line 61). -/
def generateGetter (ov : Overload) : Method :=
  { name := ov.rep.mangledName
    return_type := autoAmpType
    template := if ov.overloaded then some (TemplateDecl.mk [PARAMETER_PACK]) else none
    body := some ("return " ++ dispatchName ov.rep.mangledName ++ "(" ++
      TYPE_CONTAINER ++ utilsTemplate ov.getterDispatchArgs ++ "{});")
    access := "public" }

/-- The qualifier markers of one signature in the fixed order const,
volatile, lvalue, rvalue (overload.py lines 137-144 and 232-239). -/
def markers4 (f : Method) : List String :=
  (if f.const then [CONST_ENUM] else []) ++
  (if f.volatileFlag then [VOLATILE_ENUM] else []) ++
  (if f.lvalue then [LVALUE_ENUM] else []) ++
  (if f.rvalue then [RVALUE_ENUM] else [])

/-- The type-container template arguments of the dispatch method generated
for one signature (overload.py lines 136-147): the signature's own
parameter types (as written, rendered by `utils.template`) followed by its
qualifier markers. -/
def dispatchKeyArgs (f : Method) : List String :=
  f.params.map CppType.render ++ markers4 f

/-- `Overload.generate_dispatch_methods` (overload.py line 125). -/
def generateDispatchMethods (ov : Overload) : List Method :=
  ov.methods.enum.map (fun p =>
    { name := dispatchName p.2.mangledName
      params := [CppType.base (TYPE_CONTAINER ++ utilsTemplate (dispatchKeyArgs p.2))
        false false false false false false]
      return_type := CppType.base "auto" false false true false false false
      body := some ("return *" ++ sharedPtrName p.2.mangledName p.1 ++ ";")
      access := "private" })

/-- `Overload.generate_shared_ptrs` (overload.py line 107). -/
def generateSharedPtrs (ov : Overload) : List Variable :=
  ov.methods.enum.map (fun p =>
    let templateArgs : List String :=
      [ov.parent.fullName, CppType.render p.2.return_type] ++
        p.2.params.map (fun q => CppType.render q.getDecayed)
    let valueType := "::drmock::Method" ++ utilsTemplate templateArgs
    { name := sharedPtrName p.2.mangledName p.1
      type := "std::shared_ptr<" ++ valueType ++ ">"
      default_args :=
        ["std::make_shared<" ++ valueType ++ ">(\"" ++ p.2.name ++ "\", " ++
          STATE_OBJECT_NAME ++ ")"]
      access := "private" })

/-- The template-argument list of `Overload._generate_access` (overload.py
lines 228-239) for one signature of an overloaded group: the signature's
parameter types when parameters vary, then its qualifier markers (const,
volatile, lvalue, rvalue) when qualifiers vary. -/
def accessTemplateArgs (ov : Overload) (f : Method) : List String :=
  (if ov.allSameParams then [] else f.params.map CppType.render) ++
  (if ov.allSameQuals then [] else markers4 f)

/-- `Overload._generate_access` (overload.py line 218). -/
def generateAccess (ov : Overload) (f : Method) : String :=
  if ov.overloaded then
    MOCK_OBJECT_NAME ++ ".template " ++ f.mangledName ++
      utilsTemplate (ov.accessTemplateArgs f) ++ "()"
  else
    MOCK_OBJECT_NAME ++ "." ++ f.mangledName ++ "()"

/-- The type-container template-argument list the getter's dispatch call
carries once its parameter pack `DRMOCK_Ts` has been instantiated with the
explicit template arguments of the access expression for `f` (C++ pack
substitution): the pack component of `getterDispatchArgs` is replaced by
`accessTemplateArgs ov f`. -/
def getterSuppliedArgs (ov : Overload) (f : Method) : List String :=
  (if ov.allSameParams then ov.rep.params.map CppType.render else []) ++
  (if ov.overloaded then ov.accessTemplateArgs f else []) ++
  (if ov.allSameQuals then ov.getterAutoQuals else [])

end Overload

/-- The effective access-specifier list of `get_overloads_of_class`
(overload.py line 42): Python's `if not access_specs` treats both `None`
and an empty list as absent and substitutes `["public"]`. -/
def effectiveAccessSpecs (accessSpecs : Option (List String)) : List String :=
  match accessSpecs with
  | none => ["public"]
  | some l => if l.isEmpty then ["public"] else l

/-- The filtered method list of `get_overloads_of_class` (overload.py line
44): the virtual methods of the class whose access specifier is allowed. -/
def allowedVirtualMethods (c : Class) (accessSpecs : Option (List String)) :
    List Method :=
  c.getVirtualMethods.filter
    (fun m => (effectiveAccessSpecs accessSpecs).contains m.access)

/-- `overload.get_overloads_of_class` (overload.py line 30). -/
def getOverloadsOfClass (c : Class) (accessSpecs : Option (List String)) :
    List Overload :=
  (splitByCondition (fun m => m.mangledName) (allowedVirtualMethods c accessSpecs)).map
    (fun g => Overload.mk c g)

/-! Class assembly (`generator.py`). -/

/-- `generator._generate_enclosing_namespace` (generator.py line 404), with
an absent namespace modelled by `""` (Python treats both `None` and `""` as
falsy here). -/
def generateEnclosingNamespace (c : Class) (ns : String) : List String :=
  if ns = "" then c.enclosing_namespace
  else if ns.startsWith "::" then ns.splitOn "::"
  else c.enclosing_namespace ++ ns.splitOn "::"

/-- The shared state object of `_generate_mock_object` (generator.py lines
240-245), default-initialized before every shared_ptr. -/
def stateObjectVar : Variable :=
  { name := STATE_OBJECT_NAME
    type := "std::shared_ptr<::drmock::StateObject>"
    default_args := ["std::make_shared<::drmock::StateObject>()"]
    access := "private" }

/-- The concatenated per-signature storage declarations of
`_generate_mock_object` (generator.py line 248). -/
def mockSharedPtrs (c : Class) (accessSpecs : Option (List String)) : List Variable :=
  ((getOverloadsOfClass c accessSpecs).map (·.generateSharedPtrs)).flatten

/-- The controller member of `_generate_mock_object` (generator.py lines
251-259). -/
def controllerVar (c : Class) (accessSpecs : Option (List String))
    (controller : String) : Variable :=
  { name := controller
    type := "::drmock::Controller"
    default_args :=
      ["\x7b" ++ String.intercalate ", " ((mockSharedPtrs c accessSpecs).map (·.name)) ++ "\x7d",
       STATE_OBJECT_NAME]
    access := "public" }

/-- The concatenated dispatch methods of `_generate_mock_object`
(generator.py line 267). -/
def mockDispatchMethods (c : Class) (accessSpecs : Option (List String)) : List Method :=
  ((getOverloadsOfClass c accessSpecs).map (·.generateDispatchMethods)).flatten

/-- The getters of `_generate_mock_object` (generator.py line 268). -/
def mockGetters (c : Class) (accessSpecs : Option (List String)) : List Method :=
  (getOverloadsOfClass c accessSpecs).map (·.generateGetter)

/-- `generator._generate_mock_object` (generator.py line 211): the member
list of the synthesized mock-object class, in construction order: type
aliases, friend declaration, state object, storage declarations,
controller, dispatch methods, getters. -/
def generateMockObject (c : Class) (accessSpecs : Option (List String))
    (ns : String) (controller : String) : Class :=
  { name := "DRMOCK_OBJECT" ++ c.name
    enclosing_namespace := generateEnclosingNamespace c ns
    template := c.template
    members :=
      (c.getTypeAliases.map (fun a => { a with access := "private" })).map Member.typeAlias ++
      [Member.friendDecl { name := c.fullName, access := "private" }] ++
      [Member.var stateObjectVar] ++
      (mockSharedPtrs c accessSpecs).map Member.var ++
      [Member.var (controllerVar c accessSpecs controller)] ++
      (mockDispatchMethods c accessSpecs).map Member.method ++
      (mockGetters c accessSpecs).map Member.method }

/-! Well-formedness of `CppType` values.  `from_tokens` never places two
indirection markers on one layer, never attaches cv qualifiers to a layer
that also carries a reference marker unless the tokens were already
malformed C++, and only creates nested layers below an indirection.  The
round-trip property of spec section 8 holds exactly on this canonical
fragment. -/

/-- The tokens consumed specially by `Type.from_tokens`. -/
def reservedTokens : List String := ["const", "volatile", "...", "*", "&", "&&"]

/-- A terminal spelling whose space-separated tokens contain no token that
`Type.from_tokens` treats specially. -/
def cleanSpelling (s : String) : Bool :=
  (splitSpace s).all (fun tok => decide (tok ∉ reservedTokens))

/-- Per-layer flag sanity: at most one indirection marker (pointer,
lvalue ref or rvalue ref), and no cv qualifier on a reference layer. -/
def flagsOk (c v l r p : Bool) : Bool :=
  !(p && (l || r)) && !(l && r) && !((l || r) && (c || v))

/-- Canonical (parse-shaped) types: clean terminal spellings, per-layer
flag sanity, and every non-terminal layer carries an indirection and a
non-naked inner. -/
def wf : CppType → Bool
  | .base s c v l r p _ => cleanSpelling s && flagsOk c v l r p
  | .layer u c v l r p _ =>
      wf u && !u.isNaked && (p || l || r) && flagsOk c v l r p

/-- The token sequence of `Type.__str__` for one layer: `renderCore` at the
token level, with the inner rendering already tokenized.  `splitSpace`
applied to `renderCore` yields exactly this (see `splitSpace_renderCore`). -/
def renderTokensCore (inner : List String) (c v l r p pk : Bool) : List String :=
  let x := inner ++ (if l then ["&"] else []) ++ (if r then ["&&"] else [])
  let y :=
    if p then x ++ ["*"] ++ (if c then ["const"] else []) ++ (if v then ["volatile"] else [])
    else (if c then ["const"] else []) ++ (if v then ["volatile"] else []) ++ x
  y ++ (if pk then ["..."] else [])

/-- The token sequence of the rendered text of a `Type`. -/
def renderTokens : CppType → List String
  | .base s c v l r p pk => renderTokensCore (splitSpace s) c v l r p pk
  | .layer u c v l r p pk => renderTokensCore (renderTokens u) c v l r p pk

/-! Concrete inputs used by witnesses and counterexamples. -/

/-- `int`. -/
def intType : CppType := .base "int" false false false false false false

/-- `const float &`: a reference layer over a const base, as
`Type.from_tokens(['const', 'float', '&'])` builds it. -/
def constFloatRef : CppType :=
  .layer (.base "float" true false false false false false) false false true false false false

/-- A `Type` carrying `const` directly on a reference layer whose referent
is itself const: renders as `const const int &`. -/
def doubleConstRef : CppType :=
  .layer (.base "int" true false false false false false) true false true false false false

/-- A `Type` with `const` and a reference marker on the same layer. -/
def constRefSameLayer : CppType := .base "int" true false true false false false

/-- Example method `int g(int)`. -/
def exG1 : Method :=
  { name := "g", params := [intType], return_type := intType, virtual := true }

/-- Example method `int g(int) const`. -/
def exG2 : Method :=
  { name := "g", params := [intType], return_type := intType, virtual := true,
    const := true }

/-- Example method `void f(const float &) volatile`. -/
def exVolatileF : Method :=
  { name := "f", params := [constFloatRef], virtual := true, volatileFlag := true }

/-- Example protected virtual method. -/
def exProt : Method :=
  { name := "p", return_type := intType, virtual := true, access := "protected" }

/-- Example source class with two `g` overloads, one `h`, and one protected
method. -/
def exClass : Class :=
  { name := "Foo"
    members :=
      [Member.method exG1, Member.method exG2,
       Member.method { name := "h", virtual := true },
       Member.method exProt] }

/-- The overload group of the two `g` methods of `exClass`. -/
def exOverloadG : Overload := { parent := exClass, methods := [exG1, exG2] }

/-- A singleton overload group holding the volatile method `exVolatileF`. -/
def exOverloadVolatile : Overload := { parent := exClass, methods := [exVolatileF] }

/-! ## Theorems -/

/-! Simplification: basic structure. -/

/-- A value returned inside `Sum.inr` by the recursive pass of
`_get_simplified` is a fixed point of that pass. -/
theorem simpAux_inr_fixed :
    ∀ u w : CppType, CppType.simpAux u = .inr w → CppType.simpAux w = .inr w := by
  intro u
  induction u with
  | base s c v l r p pk =>
    intro w h
    by_cases hf : (c || v || l || r || p || pk) = true
    · rw [CppType.simpAux, if_pos hf] at h
      cases h
      rw [CppType.simpAux, if_pos hf]
    · rw [CppType.simpAux, if_neg hf] at h
      cases h
  | layer u c v l r p pk ih =>
    intro w h
    by_cases hf : (c || v || l || r || p || pk) = true
    · rw [CppType.simpAux, if_pos hf] at h
      cases hs : CppType.simpAux u with
      | inl s' =>
        rw [hs] at h
        cases h
        rw [CppType.simpAux, if_pos hf]
      | inr w' =>
        rw [hs] at h
        cases h
        rw [CppType.simpAux, if_pos hf, ih w' hs]
    · rw [CppType.simpAux, if_neg hf] at h
      exact ih w h

/-- `_get_simplified` is idempotent. -/
theorem getSimplified_idem (t : CppType) :
    t.getSimplified.getSimplified = t.getSimplified := by
  induction t with
  | base s c v l r p pk => rfl
  | layer u c v l r p pk ih =>
    by_cases hf : (c || v || l || r || p || pk) = true
    · rw [CppType.getSimplified, if_pos hf]
      cases hs : CppType.simpAux u with
      | inl s' => rfl
      | inr w => rw [CppType.getSimplified, if_pos hf, simpAux_inr_fixed u w hs]
    · rw [CppType.getSimplified, if_neg hf]
      exact ih

/-- The decayed form of a `Type` is simplified. -/
theorem getSimplified_getDecayed (t : CppType) :
    t.getDecayed.getSimplified = t.getDecayed := by
  rw [CppType.getDecayed]
  exact getSimplified_idem _

/-! Claim C3: equality versus naked-layer nesting. -/

/-- C3 (counterexample): wrapping `int` in a naked layer does not yield a
`Type` that compares equal to `int`; structural equality does not simplify
first. -/
theorem naked_wrap_not_equal :
    CppType.layer intType false false false false false false ≠ intType := by
  decide

/-- C3 (amended): a naked wrapper changes the `Type` value, but both passes
of `_get_simplified` erase it, so the wrapped and the bare `Type` have
identical simplifications (and hence compare equal after simplification). -/
theorem naked_wrap_simplifies_equal :
    (∀ t : CppType,
      (CppType.layer t false false false false false false).getSimplified = t.getSimplified) ∧
    (∀ t : CppType,
      CppType.simpAux (CppType.layer t false false false false false false) =
        CppType.simpAux t) :=
  ⟨fun _ => rfl, fun _ => rfl⟩

/-! Claim C4: idempotence of decay and simplify. -/

/-- C4 (counterexample): decay is not idempotent on every `Type`.  On a
layer carrying both `const` and a reference marker, the first decay keeps
the `const` (cv qualifiers of a reference are looked up on the inner layer,
which here is the terminal spelling), and the second decay strips it. -/
theorem getDecayed_not_idempotent :
    constRefSameLayer.getDecayed.getDecayed ≠ constRefSameLayer.getDecayed := by
  decide

/-- C4 (amended): `_get_simplified` is idempotent on every `Type`, and
`get_decayed` is idempotent on every `Type` whose decayed form carries no
reference marker and no outer cv qualifier — which holds for every type
whose reference cv qualifiers sit on the inner layer, as `from_tokens`
builds them. -/
theorem decay_simplify_idempotent :
    (∀ t : CppType, t.getSimplified.getSimplified = t.getSimplified) ∧
    (∀ t : CppType,
      t.getDecayed.lvalue_ref = false → t.getDecayed.rvalue_ref = false →
      t.getDecayed.const = false → t.getDecayed.volatileFlag = false →
      t.getDecayed.getDecayed = t.getDecayed) := by
  refine ⟨getSimplified_idem, fun t hl hr hc hv => ?_⟩
  conv_lhs => rw [CppType.getDecayed]
  rw [getSimplified_getDecayed]
  cases hd : t.getDecayed with
  | base s c v l r p pk =>
    rw [hd] at hl hr hc hv
    simp only [CppType.lvalue_ref, CppType.rvalue_ref, CppType.const,
      CppType.volatileFlag] at hl hr hc hv
    subst hl; subst hr; subst hc; subst hv
    simp only [Bool.or_self, Bool.false_or, if_neg (by simp : ¬((false || false) = true))]
    rfl
  | layer u c v l r p pk =>
    rw [hd] at hl hr hc hv
    simp only [CppType.lvalue_ref, CppType.rvalue_ref, CppType.const,
      CppType.volatileFlag] at hl hr hc hv
    subst hl; subst hr; subst hc; subst hv
    simp only [Bool.or_self, Bool.false_or, if_neg (by simp : ¬((false || false) = true))]
    have := getSimplified_getDecayed t
    rw [hd] at this
    exact this

/-- Witness for C4's amended decay statement at `const float &`. -/
theorem decay_simplify_idempotent_witness :
    constFloatRef.getDecayed.lvalue_ref = false ∧
    constFloatRef.getDecayed.getDecayed = constFloatRef.getDecayed :=
  ⟨by decide,
   decay_simplify_idempotent.2 constFloatRef (by decide) (by decide) (by decide) (by decide)⟩

/-! Mangling. -/

/-- Python `s.replace(k, v)` leaves a string without an occurrence of `k`
unchanged (character-list level). -/
theorem pyReplaceGo_of_not_occurs (v : List Char) :
    ∀ (fuel : Nat) (s k : List Char), occursIn k s = false → pyReplaceGo v fuel s k = s := by
  intro fuel
  induction fuel with
  | zero => intro s k _; rfl
  | succ n ih =>
    intro s k h
    cases s with
    | nil => rfl
    | cons c rest =>
      rw [occursIn, Bool.or_eq_false_iff] at h
      rw [pyReplaceGo, if_neg, ih rest k h.2]
      intro hcontra
      rw [hcontra.2] at h
      exact absurd h.1.symm (by simp)

/-- Python `s.replace(k, v)` leaves a string without an occurrence of `k`
unchanged. -/
theorem pyReplace_of_not_occurs (s k v : String) (h : occursIn k.data s.data = false) :
    pyReplace s k v = s := by
  rw [pyReplace, pyReplaceGo_of_not_occurs v.data s.data.length s.data k.data h]

/-- Folding identity replacements over a table leaves the string
unchanged. -/
theorem foldl_pyReplace_of_not_occurs :
    ∀ (table : List (String × String)) (s : String),
      (∀ kv ∈ table, occursIn kv.1.data s.data = false) →
      table.foldl (fun r kv => pyReplace r kv.1 kv.2) s = s := by
  intro table
  induction table with
  | nil => intro s _; rfl
  | cons kv rest ih =>
    intro s h
    rw [List.foldl_cons, pyReplace_of_not_occurs s kv.1 kv.2 (h kv (by simp))]
    exact ih s (fun kv' hm => h kv' (by simp [hm]))

/-! Claim C7: the ordered substitution table. -/

/-- C7: `mangled_name` maps `operator<=>` to `operatorSpaceShip` — the
three-character spaceship token is substituted before the shorter tokens
`<=`, `<`, `=`, `>` that are substrings of it — and maps `operator<=` to
`operatorLesserOrEqual`. -/
theorem mangled_name_spaceship :
    ({ name := "operator<=>" } : Method).mangledName = "operatorSpaceShip" ∧
    ({ name := "operator<=" } : Method).mangledName = "operatorLesserOrEqual" := by
  constructor <;> decide

/-! Claim C8: pass-through of non-operator names. -/

/-- C8 (counterexample): `do_co_await` is not an operator name by the
code's own operator test, yet `mangled_name` alters it — the table's
`co_await` entry matches inside it as a plain substring. -/
theorem mangled_name_alters_co_await_identifier :
    isOperatorName "do_co_await" = false ∧
    ({ name := "do_co_await" } : Method).mangledName ≠ "do_co_await" := by
  constructor <;> decide

/-- C8 (amended): `mangled_name` returns the name unchanged exactly for
names in which no operator token of the substitution table occurs as a
substring; a non-operator identifier that contains a table token (such as
`co_await`) is rewritten by the literal substitution. -/
theorem mangled_name_id_of_no_operator_token (m : Method)
    (h : ∀ kv ∈ OPERATOR_SYMBOLS, occursIn kv.1.data m.name.data = false) :
    m.mangledName = m.name :=
  foldl_pyReplace_of_not_occurs OPERATOR_SYMBOLS m.name h

/-- Witness for C8's amended statement at the identifier `frobnicate`. -/
theorem mangled_name_id_witness :
    (∀ kv ∈ OPERATOR_SYMBOLS, occursIn kv.1.data ("frobnicate").data = false) ∧
    ({ name := "frobnicate" } : Method).mangledName = "frobnicate" :=
  ⟨by decide, mangled_name_id_of_no_operator_token { name := "frobnicate" } (by decide)⟩

/-! `split_by_condition`: general properties. -/

section SplitLemmas

variable {α κ : Type} [DecidableEq κ] (pred : α → κ)

theorem mem_foldl_firstOcc_mono (seq : List α) (acc : List κ) (v : κ) (h : v ∈ acc) :
    v ∈ seq.foldl (fun a x => if pred x ∈ a then a else a ++ [pred x]) acc := by
  induction seq generalizing acc with
  | nil => exact h
  | cons a rest ih =>
    rw [List.foldl_cons]
    by_cases hc : pred a ∈ acc
    · rw [if_pos hc]; exact ih acc h
    · rw [if_neg hc]; exact ih _ (by simp [h])

theorem mem_foldl_firstOcc (seq : List α) (acc : List κ) (v : κ)
    (h : v ∈ seq.foldl (fun a x => if pred x ∈ a then a else a ++ [pred x]) acc) :
    v ∈ acc ∨ ∃ x ∈ seq, pred x = v := by
  induction seq generalizing acc with
  | nil => exact Or.inl h
  | cons a rest ih =>
    rw [List.foldl_cons] at h
    rcases ih _ h with hacc | ⟨x, hx, hpx⟩
    · by_cases hc : pred a ∈ acc
      · rw [if_pos hc] at hacc; exact Or.inl hacc
      · rw [if_neg hc] at hacc
        rcases List.mem_append.1 hacc with h1 | h1
        · exact Or.inl h1
        · exact Or.inr ⟨a, by simp, (List.mem_singleton.1 h1).symm⟩
    · exact Or.inr ⟨x, by simp [hx], hpx⟩

theorem pred_mem_foldl_firstOcc (seq : List α) (x : α) :
    ∀ acc : List κ, x ∈ seq →
      pred x ∈ seq.foldl (fun a y => if pred y ∈ a then a else a ++ [pred y]) acc := by
  induction seq with
  | nil => intro acc h; cases h
  | cons a rest ih =>
    intro acc h
    rw [List.foldl_cons]
    rcases List.mem_cons.1 h with rfl | hmem
    · by_cases hc : pred x ∈ acc
      · rw [if_pos hc]; exact mem_foldl_firstOcc_mono pred rest acc _ hc
      · rw [if_neg hc]; exact mem_foldl_firstOcc_mono pred rest _ _ (by simp)
    · by_cases hc : pred a ∈ acc
      · rw [if_pos hc]; exact ih acc hmem
      · rw [if_neg hc]; exact ih _ hmem

theorem nodup_foldl_firstOcc (seq : List α) (acc : List κ) (h : acc.Nodup) :
    (seq.foldl (fun a x => if pred x ∈ a then a else a ++ [pred x]) acc).Nodup := by
  induction seq generalizing acc with
  | nil => exact h
  | cons a rest ih =>
    rw [List.foldl_cons]
    by_cases hc : pred a ∈ acc
    · rw [if_pos hc]; exact ih acc h
    · rw [if_neg hc]
      exact ih _ (by simp [List.nodup_append, h, hc])

theorem mem_firstOccVals (seq : List α) (v : κ) (h : v ∈ firstOccVals pred seq) :
    ∃ x ∈ seq, pred x = v := by
  rcases mem_foldl_firstOcc pred seq [] v h with h1 | h1
  · cases h1
  · exact h1

theorem pred_mem_firstOccVals (seq : List α) (x : α) (h : x ∈ seq) :
    pred x ∈ firstOccVals pred seq :=
  pred_mem_foldl_firstOcc pred seq x [] h

theorem nodup_firstOccVals (seq : List α) : (firstOccVals pred seq).Nodup :=
  nodup_foldl_firstOcc pred seq [] List.nodup_nil

theorem count_filter_pred [DecidableEq α] (seq : List α) (a : α) (v : κ) :
    (seq.filter (fun x => decide (pred x = v))).count a =
      if pred a = v then seq.count a else 0 := by
  by_cases h : pred a = v
  · rw [if_pos h]
    exact List.count_filter (by simpa using h)
  · rw [if_neg h, List.count_eq_zero]
    intro hmem
    exact h (by simpa using (List.mem_filter.1 hmem).2)

theorem count_flatten_groups [DecidableEq α] (seq : List α) (a : α) :
    ∀ vals : List κ, vals.Nodup →
      ((vals.map (fun v => seq.filter (fun x => decide (pred x = v)))).flatten).count a =
        if pred a ∈ vals then seq.count a else 0 := by
  intro vals
  induction vals with
  | nil => intro _; simp
  | cons v vs ih =>
    intro hnd
    rw [List.map_cons, List.flatten_cons, List.count_append,
      count_filter_pred pred seq a v, ih (List.nodup_cons.1 hnd).2]
    by_cases h : pred a = v
    · rw [if_pos h, if_neg (h ▸ (List.nodup_cons.1 hnd).1), if_pos (by simp [h]),
        Nat.add_zero]
    · rw [if_neg h]
      by_cases h2 : pred a ∈ vs
      · rw [if_pos h2, if_pos (by simp [h2]), Nat.zero_add]
      · rw [if_neg h2, if_neg (by simp [h, h2])]

theorem splitByCondition_flatten_perm [DecidableEq α] (seq : List α) :
    (splitByCondition pred seq).flatten.Perm seq := by
  refine List.perm_iff_count.2 fun a => ?_
  rw [splitByCondition, count_flatten_groups pred seq a _ (nodup_firstOccVals pred seq)]
  by_cases h : pred a ∈ firstOccVals pred seq
  · rw [if_pos h]
  · rw [if_neg h]
    symm
    rw [List.count_eq_zero]
    intro hmem
    exact h (pred_mem_firstOccVals pred seq a hmem)

theorem mem_splitByCondition (seq : List α) (g : List α)
    (h : g ∈ splitByCondition pred seq) :
    g ≠ [] ∧ g.Sublist seq ∧ ∃ v ∈ firstOccVals pred seq, ∀ x ∈ g, pred x = v := by
  obtain ⟨v, hv, rfl⟩ := List.mem_map.1 h
  obtain ⟨x, hx, hpx⟩ := mem_firstOccVals pred seq v hv
  refine ⟨?_, List.filter_sublist seq, v, hv, fun y hy => by simpa using (List.mem_filter.1 hy).2⟩
  intro hnil
  have : x ∈ seq.filter (fun y => decide (pred y = v)) :=
    List.mem_filter.2 ⟨hx, by simpa using hpx⟩
  rw [hnil] at this
  cases this

theorem splitByCondition_heads (seq : List α) :
    (splitByCondition pred seq).map (fun g => (g.map pred).head?) =
      (firstOccVals pred seq).map some := by
  rw [splitByCondition, List.map_map]
  refine List.map_congr_left fun v hv => ?_
  obtain ⟨x, hx, hpx⟩ := mem_firstOccVals pred seq v hv
  have hne : seq.filter (fun y => decide (pred y = v)) ≠ [] := by
    intro hnil
    have : x ∈ seq.filter (fun y => decide (pred y = v)) :=
      List.mem_filter.2 ⟨hx, by simpa using hpx⟩
    rw [hnil] at this
    cases this
  cases hf : seq.filter (fun y => decide (pred y = v)) with
  | nil => exact absurd hf hne
  | cons y ys =>
    have hy : y ∈ seq.filter (fun z => decide (pred z = v)) := by rw [hf]; simp
    have : pred y = v := by simpa using (List.mem_filter.1 hy).2
    simp [hf, this]

end SplitLemmas

/-! Claim C6: grouping is a stable partition. -/

/-- The overload groups of a class are the `splitByCondition` classes of
its allowed virtual methods. -/
theorem overload_groups_eq_split (c : Class) (specs : Option (List String)) :
    (getOverloadsOfClass c specs).map Overload.methods =
      splitByCondition (fun m => m.mangledName) (allowedVirtualMethods c specs) := by
  rw [getOverloadsOfClass, List.map_map]
  exact List.map_id _

/-- C6: grouping is a stable partition.  The flattened groups are a
permutation of the allowed virtual methods (so every such method is in
exactly one group, counted with multiplicity); every group is non-empty, is
a sublist of the filtered member list (members keep their relative input
order), and is homogeneous in mangled name; and the sequence of group keys
is the first-occurrence-ordered key sequence of the filtered member
list. -/
theorem grouping_stable_partition (c : Class) (specs : Option (List String)) :
    ((getOverloadsOfClass c specs).map Overload.methods).flatten.Perm
        (allowedVirtualMethods c specs) ∧
    (∀ g ∈ (getOverloadsOfClass c specs).map Overload.methods,
        g ≠ [] ∧ g.Sublist (allowedVirtualMethods c specs) ∧
        ∀ x ∈ g, ∀ y ∈ g, x.mangledName = y.mangledName) ∧
    ((getOverloadsOfClass c specs).map Overload.methods).map
        (fun g => (g.map Method.mangledName).head?) =
      (firstOccVals Method.mangledName (allowedVirtualMethods c specs)).map some := by
  rw [overload_groups_eq_split]
  refine ⟨splitByCondition_flatten_perm _ _, fun g hg => ?_,
    splitByCondition_heads _ _⟩
  obtain ⟨hne, hsub, v, _, hv⟩ := mem_splitByCondition _ _ g hg
  exact ⟨hne, hsub, fun x hx y hy => (hv x hx).trans (hv y hy).symm⟩

/-- Witness for C6 at a concrete class: the two `g` overloads form the
first group, `h` the second, covering exactly the public virtual methods in
order. -/
theorem grouping_stable_partition_witness :
    [exG1, exG2] ∈ (getOverloadsOfClass exClass none).map Overload.methods ∧
    exG1.mangledName = exG2.mangledName ∧
    ((getOverloadsOfClass exClass none).map Overload.methods).flatten.Perm
      (allowedVirtualMethods exClass none) :=
  ⟨by decide,
   ((grouping_stable_partition exClass none).2.1 [exG1, exG2] (by decide)).2.2
     exG1 (by decide) exG2 (by decide),
   (grouping_stable_partition exClass none).1⟩

/-! Claim C10: the default access filter. -/

/-- C10: with no access-specifier list (`None` or an empty list), every
method of every overload group returned by `get_overloads_of_class` is
public, so protected and private virtual methods are excluded. -/
theorem overloads_default_access_public (c : Class) (specs : Option (List String))
    (h : specs = none ∨ specs = some []) :
    ∀ ov ∈ getOverloadsOfClass c specs, ∀ m ∈ ov.methods, m.access = "public" := by
  intro ov hov m hm
  have hspecs : effectiveAccessSpecs specs = ["public"] := by
    rcases h with h | h <;> subst h <;> rfl
  obtain ⟨g, hg, rfl⟩ := List.mem_map.1 hov
  have hmem : m ∈ allowedVirtualMethods c specs := by
    have hsub := (@mem_splitByCondition Method String _ (fun m => m.mangledName)
      (allowedVirtualMethods c specs) g hg).2.1
    exact hsub.mem hm
  have hc := (List.mem_filter.1 hmem).2
  rw [hspecs] at hc
  simpa using hc

/-- Witness for C10: in `exClass` the method `exG1` is grouped under the
default filter and is public, while the protected method is excluded. -/
theorem overloads_default_access_public_witness :
    exG1.access = "public" ∧
    (∀ ov ∈ getOverloadsOfClass exClass none, exProt ∉ ov.methods) :=
  ⟨overloads_default_access_public exClass none (Or.inl rfl)
      (Overload.mk exClass [exG1, exG2]) (by decide) exG1 (by decide),
   by decide⟩

/-! Uniformity of overload groups. -/

theorem allSameParams_of_short (ov : Overload) (h : ov.methods.length ≤ 1) :
    ov.allSameParams = true := by
  rw [Overload.allSameParams]
  cases hm : ov.methods with
  | nil => simp
  | cons a l =>
    cases l with
    | nil => simp [Overload.rep, hm]
    | cons b l2 => rw [hm] at h; simp at h

theorem allSameQuals_of_short (ov : Overload) (h : ov.methods.length ≤ 1) :
    ov.allSameQuals = true := by
  rw [Overload.allSameQuals]
  cases hm : ov.methods with
  | nil => simp
  | cons a l =>
    cases l with
    | nil => simp [Overload.rep, hm]
    | cons b l2 => rw [hm] at h; simp at h

theorem length_le_one_of_not_overloaded (ov : Overload) (h : ov.overloaded = false) :
    ov.methods.length ≤ 1 := by
  rw [Overload.overloaded] at h
  simpa using h

theorem overloaded_of_param_diff (ov : Overload) (h : ov.allSameParams = false) :
    ov.overloaded = true := by
  cases ho : ov.overloaded with
  | true => rfl
  | false =>
    rw [allSameParams_of_short ov (length_le_one_of_not_overloaded ov ho)] at h
    cases h

theorem overloaded_of_qual_diff (ov : Overload) (h : ov.allSameQuals = false) :
    ov.overloaded = true := by
  cases ho : ov.overloaded with
  | true => rfl
  | false =>
    rw [allSameQuals_of_short ov (length_le_one_of_not_overloaded ov ho)] at h
    cases h

theorem params_eq_rep (ov : Overload) (f : Method) (hf : f ∈ ov.methods)
    (h : ov.allSameParams = true) : f.params = ov.rep.params := by
  have := List.all_eq_true.1 h f hf
  simpa using this

theorem quals_eq_rep (ov : Overload) (f : Method) (hf : f ∈ ov.methods)
    (h : ov.allSameQuals = true) :
    f.const = ov.rep.const ∧ f.lvalue = ov.rep.lvalue ∧ f.rvalue = ov.rep.rvalue := by
  have := List.all_eq_true.1 h f hf
  simp only [decide_eq_true_eq, Prod.mk.injEq] at this
  exact ⟨this.1, this.2.1, this.2.2⟩

theorem all_proj_eq (ov : Overload) (f : Method) (proj : Method → Bool)
    (hf : f ∈ ov.methods) (hproj : ∀ m ∈ ov.methods, proj m = proj ov.rep) :
    ov.methods.all proj = proj f := by
  cases hp : proj f with
  | true =>
    rw [List.all_eq_true]
    intro m hm
    rw [hproj m hm, ← hproj f hf, hp]
  | false =>
    rw [Bool.eq_false_iff]
    intro hall
    rw [List.all_eq_true] at hall
    rw [hall f hf] at hp
    cases hp

/-- Under uniform qualifiers and a volatile-free signature, the getter's
auto-appended qualifier markers coincide with the signature's own marker
list. -/
theorem getterAutoQuals_eq_markers4 (ov : Overload) (f : Method) (hf : f ∈ ov.methods)
    (hq : ov.allSameQuals = true) (hv : f.volatileFlag = false) :
    ov.getterAutoQuals = Overload.markers4 f := by
  have hc := all_proj_eq ov f (fun m => m.const) hf
    (fun m hm => (quals_eq_rep ov m hm hq).1)
  have hlv := all_proj_eq ov f (fun m => m.lvalue) hf
    (fun m hm => (quals_eq_rep ov m hm hq).2.1)
  have hrv := all_proj_eq ov f (fun m => m.rvalue) hf
    (fun m hm => (quals_eq_rep ov m hm hq).2.2)
  rw [Overload.getterAutoQuals, Overload.markers4, hv, hc, hlv, hrv]
  simp

/-! Claim C2: dispatch keys and getter-supplied containers. -/

/-- The core reachability equation: the container the getter supplies for a
signature equals the signature's dispatch key, provided the signature is not
volatile-qualified or the group's qualifiers vary. -/
theorem getterSupplied_eq_dispatchKey (ov : Overload) (f : Method)
    (hf : f ∈ ov.methods) (h : f.volatileFlag = false ∨ ov.allSameQuals = false) :
    ov.getterSuppliedArgs f = Overload.dispatchKeyArgs f := by
  rw [Overload.getterSuppliedArgs, Overload.dispatchKeyArgs, Overload.accessTemplateArgs]
  cases hq : ov.allSameQuals with
  | true =>
    have hv : f.volatileFlag = false := by
      rcases h with h | h
      · exact h
      · rw [hq] at h; cases h
    have hmar := getterAutoQuals_eq_markers4 ov f hf hq hv
    cases ha : ov.allSameParams with
    | true =>
      have hp : f.params = ov.rep.params := params_eq_rep ov f hf ha
      cases ho : ov.overloaded <;> simp [ha, hq, ho, hmar, hp]
    | false =>
      have ho : ov.overloaded = true := overloaded_of_param_diff ov ha
      simp [ha, hq, ho, hmar]
  | false =>
    have ho : ov.overloaded = true := overloaded_of_qual_diff ov hq
    cases ha : ov.allSameParams with
    | true =>
      have hp : f.params = ov.rep.params := params_eq_rep ov f hf ha
      simp [ha, hq, ho, hp]
    | false => simp [ha, hq, ho]

/-- C2 (amended): each dispatch method is keyed on a type container built
from its signature's own parameter types as written (not decayed) followed
by the const, volatile, lvalue, rvalue markers present on the signature, in
that fixed order; and this key equals the container the getter supplies for
the signature whenever the signature is not volatile-qualified or the
group's qualifiers are non-uniform.  (For a volatile-qualified signature in
a qualifier-uniform group — e.g. a group whose single member is
volatile-qualified — the getter omits the volatile marker and the key is
not supplied; see the counterexample.) -/
theorem dispatch_key_matches_getter (ov : Overload) (f : Method)
    (hf : f ∈ ov.methods) (h : f.volatileFlag = false ∨ ov.allSameQuals = false) :
    (ov.generateDispatchMethods).map Method.params =
      ov.methods.map (fun m =>
        [CppType.base (TYPE_CONTAINER ++ utilsTemplate (Overload.dispatchKeyArgs m))
          false false false false false false]) ∧
    ov.getterSuppliedArgs f = Overload.dispatchKeyArgs f := by
  refine ⟨?_, getterSupplied_eq_dispatchKey ov f hf h⟩
  rw [Overload.generateDispatchMethods, List.map_map]
  rw [show ((Method.params ∘ fun p : Nat × Method =>
      ({ name := dispatchName p.2.mangledName
         params := [CppType.base (TYPE_CONTAINER ++ utilsTemplate (Overload.dispatchKeyArgs p.2))
           false false false false false false]
         return_type := CppType.base "auto" false false true false false false
         body := some ("return *" ++ sharedPtrName p.2.mangledName p.1 ++ ";")
         access := "private" } : Method))) =
    ((fun m => [CppType.base (TYPE_CONTAINER ++ utilsTemplate (Overload.dispatchKeyArgs m))
      false false false false false false]) ∘ Prod.snd) from rfl]
  rw [← List.map_map, List.enum_map_snd]

/-- Witness for C2 at the non-volatile overload pair of `exClass`. -/
theorem dispatch_key_matches_getter_witness :
    exG1 ∈ exOverloadG.methods ∧
    exOverloadG.getterSuppliedArgs exG1 = Overload.dispatchKeyArgs exG1 :=
  ⟨by decide,
   (dispatch_key_matches_getter exOverloadG exG1 (by decide) (Or.inl (by decide))).2⟩

/-- C2 (counterexample): for a group whose single member is
volatile-qualified with parameter `const float &`, the dispatch key uses the
raw (undecayed) parameter spelling, and the getter-supplied container omits
the volatile marker, so neither equation of the claim holds. -/
theorem dispatch_key_counterexample :
    Overload.dispatchKeyArgs exVolatileF ≠
      exVolatileF.params.map (fun p => CppType.render p.getDecayed) ++
        Overload.markers4 exVolatileF ∧
    exOverloadVolatile.getterSuppliedArgs exVolatileF ≠
      Overload.dispatchKeyArgs exVolatileF := by
  constructor <;> decide

/-! Claim C1: a two-member group differing only by const. -/

/-- C1 (counterexample): for two methods with identical parameter lists
differing only by a trailing const, the generated getter does have a
template declaration (the variadic pack), and the dispatch call supplies the
pack argument after the shared parameter types, not the parameter types
alone. -/
theorem const_pair_getter_counterexample :
    (exOverloadG.generateGetter).template ≠ none ∧
    exOverloadG.getterDispatchArgs ≠ exG1.params.map CppType.render := by
  constructor <;> decide

/-- C1 (amended): for an overload group of exactly two virtual methods with
identical parameter-type lists that differ only by a trailing const
qualifier, the getter carries the variadic template declaration
`template<typename... DRMOCK_Ts>`; its dispatch call supplies the shared
parameter types followed by the pack argument and auto-appends no qualifier
markers; and the override-body access expression carries the const marker
exactly for the const-qualified member. -/
theorem const_pair_generation_sites (c : Class) (f1 f2 : Method)
    (hp : f1.params = f2.params) (h1 : f1.const = false) (h2 : f2.const = true)
    (_hv : f1.volatileFlag = f2.volatileFlag) (_hl : f1.lvalue = f2.lvalue)
    (_hr : f1.rvalue = f2.rvalue) :
    ((Overload.mk c [f1, f2]).generateGetter).template =
      some (TemplateDecl.mk [PARAMETER_PACK]) ∧
    (Overload.mk c [f1, f2]).getterDispatchArgs =
      f1.params.map CppType.render ++ ["DRMOCK_Ts ..."] ∧
    CONST_ENUM ∉ (Overload.mk c [f1, f2]).accessTemplateArgs f1 ∧
    CONST_ENUM ∈ (Overload.mk c [f1, f2]).accessTemplateArgs f2 := by
  have ho : (Overload.mk c [f1, f2]).overloaded = true := rfl
  have ha : (Overload.mk c [f1, f2]).allSameParams = true := by
    simp [Overload.allSameParams, Overload.rep, hp]
  have hq : (Overload.mk c [f1, f2]).allSameQuals = false := by
    simp [Overload.allSameQuals, Overload.rep, h1, h2]
  have hpack : (TemplateDecl.mk [PARAMETER_PACK]).getArgs = ["DRMOCK_Ts ..."] := by decide
  refine ⟨?_, ?_, ?_, ?_⟩
  · simp [Overload.generateGetter, ho]
  · simp [Overload.getterDispatchArgs, ha, ho, hq, hpack, Overload.rep]
  · simp only [Overload.accessTemplateArgs, ha, hq, if_pos, if_neg, Bool.false_eq_true,
      ite_true, ite_false, List.nil_append]
    rw [Overload.markers4, h1]
    cases hb1 : f1.volatileFlag <;> cases hb2 : f1.lvalue <;> cases hb3 : f1.rvalue <;>
      simp <;> decide
  · simp only [Overload.accessTemplateArgs, ha, hq, ite_true, ite_false, List.nil_append]
    rw [Overload.markers4, h2]
    simp

/-- Witness for C1 at the concrete `g`/`g const` pair. -/
theorem const_pair_generation_sites_witness :
    exG1.params = exG2.params ∧
    (exOverloadG.generateGetter).template = some (TemplateDecl.mk [PARAMETER_PACK]) ∧
    CONST_ENUM ∈ exOverloadG.accessTemplateArgs exG2 :=
  ⟨rfl,
   (const_pair_generation_sites exClass exG1 exG2 rfl rfl rfl rfl rfl rfl).1,
   (const_pair_generation_sites exClass exG1 exG2 rfl rfl rfl rfl rfl rfl).2.2.2⟩

/-! String and list positioning helpers. -/

theorem str_ext {a b : String} (h : a.data = b.data) : a = b := by
  cases a; cases b; exact congrArg String.mk h

theorem str_data_append (a b : String) : (a ++ b).data = a.data ++ b.data := rfl

/-- A string extending a fixed prefix `p` cannot equal a string whose first
`p.data.length` characters differ from `p`. -/
theorem prefix_ne (p s x : String) (h : p.data ≠ s.data.take p.data.length) :
    p ++ x ≠ s := by
  intro heq
  apply h
  have hd := congrArg String.data heq
  rw [str_data_append] at hd
  rw [← hd, List.take_left]

theorem idx_lt_of_not_mem_suffix {α : Type} {P S : List α} {i : Nat} {x : α}
    (h : (P ++ S)[i]? = some x) (hx : x ∉ S) : i < P.length := by
  by_contra hc
  rw [List.getElem?_append_right (Nat.le_of_not_lt hc)] at h
  exact hx (List.getElem?_mem h)

theorem le_idx_of_not_mem_prefix {α : Type} {P S : List α} {i : Nat} {x : α}
    (h : (P ++ S)[i]? = some x) (hx : x ∉ P) : P.length ≤ i := by
  by_contra hc
  rw [List.getElem?_append_left (Nat.lt_of_not_le hc)] at h
  exact hx (List.getElem?_mem h)

/-! Claim C9: member ordering in the generated mock object. -/

/-- Every per-signature storage declaration has a type of the form
`std::shared_ptr<::drmock::Method...>`. -/
theorem mockSharedPtrs_type (c : Class) (specs : Option (List String)) :
    ∀ y ∈ mockSharedPtrs c specs, ∃ t, y.type = "std::shared_ptr<::drmock::Method" ++ t := by
  intro y hy
  rw [mockSharedPtrs] at hy
  obtain ⟨l, hl, hyl⟩ := List.mem_flatten.1 hy
  obtain ⟨ov, _, rfl⟩ := List.mem_map.1 hl
  rw [Overload.generateSharedPtrs] at hyl
  obtain ⟨p, _, rfl⟩ := List.mem_map.1 hyl
  refine ⟨utilsTemplate ([ov.parent.fullName, CppType.render p.2.return_type] ++
    p.2.params.map (fun q => CppType.render q.getDecayed)) ++ ">", ?_⟩
  apply str_ext
  simp only [str_data_append, List.append_assoc]
  rw [← List.append_assoc]
  congr 1

/-- No storage declaration equals the state object (their types differ). -/
theorem sharedPtr_ne_state (c : Class) (specs : Option (List String)) :
    ∀ y ∈ mockSharedPtrs c specs, y ≠ stateObjectVar := by
  intro y hy heq
  obtain ⟨t, ht⟩ := mockSharedPtrs_type c specs y hy
  have : y.type = stateObjectVar.type := by rw [heq]
  rw [ht] at this
  exact prefix_ne "std::shared_ptr<::drmock::Method"
    "std::shared_ptr<::drmock::StateObject>" t (by decide) this

/-- No storage declaration equals the controller member (their types
differ). -/
theorem sharedPtr_ne_controller (c : Class) (specs : Option (List String))
    (controller : String) :
    ∀ y ∈ mockSharedPtrs c specs, y ≠ controllerVar c specs controller := by
  intro y hy heq
  obtain ⟨t, ht⟩ := mockSharedPtrs_type c specs y hy
  have : y.type = (controllerVar c specs controller).type := by rw [heq]
  rw [ht] at this
  exact prefix_ne "std::shared_ptr<::drmock::Method" "::drmock::Controller" t
    (by decide) this

/-- Every generated dispatch method is private. -/
theorem mockDispatchMethods_access (c : Class) (specs : Option (List String)) :
    ∀ m ∈ mockDispatchMethods c specs, m.access = "private" := by
  intro m hm
  rw [mockDispatchMethods] at hm
  obtain ⟨l, hl, hml⟩ := List.mem_flatten.1 hm
  obtain ⟨ov, _, rfl⟩ := List.mem_map.1 hl
  rw [Overload.generateDispatchMethods] at hml
  obtain ⟨p, _, rfl⟩ := List.mem_map.1 hml
  rfl

/-- Every generated getter is public. -/
theorem mockGetters_access (c : Class) (specs : Option (List String)) :
    ∀ m ∈ mockGetters c specs, m.access = "public" := by
  intro m hm
  rw [mockGetters] at hm
  obtain ⟨ov, _, rfl⟩ := List.mem_map.1 hm
  rfl

/-- C9: in the member list of the generated mock-object class, the shared
state object occurs at a strictly smaller index than every per-signature
storage declaration, and every dispatch method occurs at a strictly smaller
index than every getter — for every input class, access filter, namespace
and controller name. -/
theorem mock_object_member_order (c : Class) (specs : Option (List String))
    (ns controller : String) :
    (∀ (i j : Nat) (x y : Variable),
      (generateMockObject c specs ns controller).members[i]? = some (Member.var x) →
      x = stateObjectVar →
      (generateMockObject c specs ns controller).members[j]? = some (Member.var y) →
      y ∈ mockSharedPtrs c specs → i < j) ∧
    (∀ (i j : Nat) (f g : Method),
      (generateMockObject c specs ns controller).members[i]? = some (Member.method f) →
      f ∈ mockDispatchMethods c specs →
      (generateMockObject c specs ns controller).members[j]? = some (Member.method g) →
      g ∈ mockGetters c specs → i < j) := by
  constructor
  · intro i j x y hi hx hj hy
    subst hx
    have hsplit : (generateMockObject c specs ns controller).members =
        ((c.getTypeAliases.map (fun a => { a with access := "private" })).map Member.typeAlias ++
          [Member.friendDecl { name := c.fullName, access := "private" }] ++
          [Member.var stateObjectVar]) ++
        ((mockSharedPtrs c specs).map Member.var ++
          [Member.var (controllerVar c specs controller)] ++
          (mockDispatchMethods c specs).map Member.method ++
          (mockGetters c specs).map Member.method) := by
      rw [generateMockObject]
      simp [List.append_assoc]
    rw [hsplit] at hi hj
    have hlt : i < ((c.getTypeAliases.map (fun a => { a with access := "private" })).map
        Member.typeAlias ++
        [Member.friendDecl { name := c.fullName, access := "private" }] ++
        [Member.var stateObjectVar]).length := by
      refine idx_lt_of_not_mem_suffix hi ?_
      intro hmem
      rcases List.mem_append.1 hmem with hmem | hmem
      · rcases List.mem_append.1 hmem with hmem | hmem
        · rcases List.mem_append.1 hmem with hmem | hmem
          · obtain ⟨y', hy', he⟩ := List.mem_map.1 hmem
            exact sharedPtr_ne_state c specs y' hy' (Member.var.inj he.symm).symm
          · have := List.mem_singleton.1 hmem
            have hc := Member.var.inj this
            have : stateObjectVar.type = (controllerVar c specs controller).type := by
              rw [← hc]
            exact absurd this (by simp [stateObjectVar, controllerVar])
        · obtain ⟨m, _, he⟩ := List.mem_map.1 hmem
          cases he
      · obtain ⟨m, _, he⟩ := List.mem_map.1 hmem
        cases he
    have hge : ((c.getTypeAliases.map (fun a => { a with access := "private" })).map
        Member.typeAlias ++
        [Member.friendDecl { name := c.fullName, access := "private" }] ++
        [Member.var stateObjectVar]).length ≤ j := by
      refine le_idx_of_not_mem_prefix hj ?_
      intro hmem
      rcases List.mem_append.1 hmem with hmem | hmem
      · rcases List.mem_append.1 hmem with hmem | hmem
        · obtain ⟨a, _, he⟩ := List.mem_map.1 hmem
          cases he
        · cases List.mem_singleton.1 hmem
      · have := List.mem_singleton.1 hmem
        exact sharedPtr_ne_state c specs y hy (Member.var.inj this)
    exact Nat.lt_of_lt_of_le hlt hge
  · intro i j f g hi hf hj hg
    have hsplit : (generateMockObject c specs ns controller).members =
        ((c.getTypeAliases.map (fun a => { a with access := "private" })).map Member.typeAlias ++
          [Member.friendDecl { name := c.fullName, access := "private" }] ++
          [Member.var stateObjectVar] ++
          (mockSharedPtrs c specs).map Member.var ++
          [Member.var (controllerVar c specs controller)] ++
          (mockDispatchMethods c specs).map Member.method) ++
        (mockGetters c specs).map Member.method := by
      rw [generateMockObject]
    rw [hsplit] at hi hj
    have hfg : f.access = "private" := mockDispatchMethods_access c specs f hf
    have hgg : g.access = "public" := mockGetters_access c specs g hg
    have hlt : i < ((c.getTypeAliases.map (fun a => { a with access := "private" })).map
        Member.typeAlias ++
        [Member.friendDecl { name := c.fullName, access := "private" }] ++
        [Member.var stateObjectVar] ++
        (mockSharedPtrs c specs).map Member.var ++
        [Member.var (controllerVar c specs controller)] ++
        (mockDispatchMethods c specs).map Member.method).length := by
      refine idx_lt_of_not_mem_suffix hi ?_
      intro hmem
      obtain ⟨m, hm, he⟩ := List.mem_map.1 hmem
      have : f = m := Member.method.inj he.symm
      rw [this, mockGetters_access c specs m hm] at hfg
      exact absurd hfg (by decide)
    have hge : ((c.getTypeAliases.map (fun a => { a with access := "private" })).map
        Member.typeAlias ++
        [Member.friendDecl { name := c.fullName, access := "private" }] ++
        [Member.var stateObjectVar] ++
        (mockSharedPtrs c specs).map Member.var ++
        [Member.var (controllerVar c specs controller)] ++
        (mockDispatchMethods c specs).map Member.method).length ≤ j := by
      refine le_idx_of_not_mem_prefix hj ?_
      intro hmem
      rcases List.mem_append.1 hmem with hmem | hmem
      · rcases List.mem_append.1 hmem with hmem | hmem
        · rcases List.mem_append.1 hmem with hmem | hmem
          · rcases List.mem_append.1 hmem with hmem | hmem
            · rcases List.mem_append.1 hmem with hmem | hmem
              · obtain ⟨a, _, he⟩ := List.mem_map.1 hmem
                cases he
              · cases List.mem_singleton.1 hmem
            · cases List.mem_singleton.1 hmem
          · obtain ⟨v, _, he⟩ := List.mem_map.1 hmem
            cases he
        · cases List.mem_singleton.1 hmem
      · obtain ⟨m, hm, he⟩ := List.mem_map.1 hmem
        have : g = m := Member.method.inj he.symm
        rw [this, mockDispatchMethods_access c specs m hm] at hgg
        exact absurd hgg (by decide)
    exact Nat.lt_of_lt_of_le hlt hge

/-- Witness for C9 on `exClass`: the state object sits at index 1, the
first storage declaration at index 2; the first dispatch method at index 6
precedes the first getter at index 9. -/
theorem mock_object_member_order_witness :
    (1 : Nat) < 2 ∧ (6 : Nat) < 9 :=
  ⟨(mock_object_member_order exClass none "" "ctrl").1 1 2 stateObjectVar
      ((mockSharedPtrs exClass none).headD { name := "", type := "" })
      (by decide) rfl (by decide) (by decide),
   (mock_object_member_order exClass none "" "ctrl").2 6 9
      ((mockDispatchMethods exClass none).headD Overload.emptyMethod)
      ((mockGetters exClass none).headD Overload.emptyMethod)
      (by decide) (by decide) (by decide) (by decide)⟩

/-! Tokenization lemmas: Python `split(" ")` and `" ".join`. -/

theorem splitSpaceAux_ne_nil : ∀ (cs acc : List Char), splitSpaceAux cs acc ≠ [] := by
  intro cs
  induction cs with
  | nil => intro acc h; cases h
  | cons c rest ih =>
    intro acc
    rw [splitSpaceAux]
    by_cases hc : c = ' '
    · rw [if_pos hc]; intro h; cases h
    · rw [if_neg hc]; exact ih _

theorem splitSpace_ne_nil (s : String) : splitSpace s ≠ [] := by
  rw [splitSpace]
  intro h
  exact splitSpaceAux_ne_nil s.data [] (List.map_eq_nil_iff.1 h)

theorem splitSpaceAux_append :
    ∀ (xs : List Char) (acc ys : List Char),
      splitSpaceAux (xs ++ ' ' :: ys) acc = splitSpaceAux xs acc ++ splitSpaceAux ys [] := by
  intro xs
  induction xs with
  | nil =>
    intro acc ys
    simp [splitSpaceAux]
  | cons c rest ih =>
    intro acc ys
    by_cases hc : c = ' ' <;> simp [splitSpaceAux, hc, ih]

theorem str_append_assoc (a b c : String) : a ++ b ++ c = a ++ (b ++ c) := by
  apply str_ext
  simp only [str_data_append, List.append_assoc]

theorem str_append_empty (s : String) : s ++ "" = s := by
  apply str_ext
  simp [str_data_append]

theorem str_empty_append (s : String) : "" ++ s = s := by
  apply str_ext
  simp [str_data_append]

/-- Python splitting distributes over a single separating space. -/
theorem splitSpace_space_append (a b : String) :
    splitSpace (a ++ (" " ++ b)) = splitSpace a ++ splitSpace b := by
  rw [splitSpace, splitSpace, splitSpace]
  rw [show (a ++ (" " ++ b)).data = a.data ++ ' ' :: b.data from by
    simp [str_data_append]]
  rw [splitSpaceAux_append, List.map_append]

theorem splitSpace_amp (a : String) : splitSpace (a ++ " &") = splitSpace a ++ ["&"] := by
  rw [show (" &" : String) = " " ++ "&" from by decide, ← str_append_assoc,
    str_append_assoc, splitSpace_space_append]
  rfl

theorem splitSpace_ampamp (a : String) :
    splitSpace (a ++ " &&") = splitSpace a ++ ["&&"] := by
  rw [show (" &&" : String) = " " ++ "&&" from by decide, ← str_append_assoc,
    str_append_assoc, splitSpace_space_append]
  rfl

theorem splitSpace_star (a : String) : splitSpace (a ++ " *") = splitSpace a ++ ["*"] := by
  rw [show (" *" : String) = " " ++ "*" from by decide, ← str_append_assoc,
    str_append_assoc, splitSpace_space_append]
  rfl

theorem splitSpace_const_suffix (a : String) :
    splitSpace (a ++ " const") = splitSpace a ++ ["const"] := by
  rw [show (" const" : String) = " " ++ "const" from by decide, ← str_append_assoc,
    str_append_assoc, splitSpace_space_append]
  rfl

theorem splitSpace_volatile_suffix (a : String) :
    splitSpace (a ++ " volatile") = splitSpace a ++ ["volatile"] := by
  rw [show (" volatile" : String) = " " ++ "volatile" from by decide, ← str_append_assoc,
    str_append_assoc, splitSpace_space_append]
  rfl

theorem splitSpace_dots (a : String) :
    splitSpace (a ++ " ...") = splitSpace a ++ ["..."] := by
  rw [show (" ..." : String) = " " ++ "..." from by decide, ← str_append_assoc,
    str_append_assoc, splitSpace_space_append]
  rfl

theorem splitSpace_const_prefix (a : String) :
    splitSpace ("const " ++ a) = "const" :: splitSpace a := by
  rw [show ("const " : String) = "const" ++ " " from by decide, str_append_assoc,
    splitSpace_space_append]
  rfl

theorem splitSpace_volatile_prefix (a : String) :
    splitSpace ("volatile " ++ a) = "volatile" :: splitSpace a := by
  rw [show ("volatile " : String) = "volatile" ++ " " from by decide, str_append_assoc,
    splitSpace_space_append]
  rfl

theorem splitSpace_const_volatile_prefix (a : String) :
    splitSpace ("const volatile " ++ a) = "const" :: "volatile" :: splitSpace a := by
  rw [show ("const volatile " : String) = "const " ++ "volatile " from by decide,
    str_append_assoc, splitSpace_const_prefix, splitSpace_volatile_prefix]

theorem joinSpace_splitSpaceAux :
    ∀ (cs acc : List Char),
      joinSpace ((splitSpaceAux cs acc).map (fun l => (⟨l⟩ : String))) =
        ⟨acc.reverse ++ cs⟩ := by
  intro cs
  induction cs with
  | nil => intro acc; simp [splitSpaceAux, joinSpace]
  | cons c rest ih =>
    intro acc
    rw [splitSpaceAux]
    by_cases hc : c = ' '
    · rw [if_pos hc]
      cases hzz : splitSpaceAux rest [] with
      | nil => exact absurd hzz (splitSpaceAux_ne_nil rest [])
      | cons z zs =>
        rw [List.map_cons, List.map_cons,
          show ∀ (x y : String) (l : List String),
            joinSpace (x :: y :: l) = x ++ " " ++ joinSpace (y :: l) from fun x y l => rfl,
          show ((⟨z⟩ : String) :: zs.map (fun l => (⟨l⟩ : String))) =
            ((z :: zs).map (fun l => (⟨l⟩ : String))) from rfl,
          ← hzz, ih []]
        apply str_ext
        simp only [str_data_append]
        simp [hc]
    · rw [if_neg hc, ih]
      simp

/-- Python `" ".join(s.split(" ")) == s`. -/
theorem joinSpace_splitSpace (s : String) : joinSpace (splitSpace s) = s := by
  rw [splitSpace, joinSpace_splitSpaceAux s.data []]
  cases s
  rfl

/-! Scanning lemmas for `from_tokens`. -/

theorem scanR_pack (R : List String) (c v pk : Bool) :
    scanR ((if pk then ["..."] else []) ++ R) c v false = scanR R c v pk := by
  cases pk <;> rfl

theorem scanR_vol (R : List String) (c v pk : Bool) :
    scanR ((if v then ["volatile"] else []) ++ R) c false pk = scanR R c v pk := by
  cases v <;> rfl

theorem scanR_cst (R : List String) (c v pk : Bool) :
    scanR ((if c then ["const"] else []) ++ R) false v pk = scanR R c v pk := by
  cases c <;> rfl

theorem scanR_star_head (R : List String) (c v pk : Bool) :
    scanR ("*" :: R) c v pk = some ⟨c, v, pk, true, false, false, R⟩ := rfl

theorem scanR_amp_head (R : List String) (c v pk : Bool) :
    scanR ("&" :: R) c v pk = some ⟨c, v, pk, false, true, false, R⟩ := rfl

theorem scanR_ampamp_head (R : List String) (c v pk : Bool) :
    scanR ("&&" :: R) c v pk = some ⟨c, v, pk, false, false, true, R⟩ := rfl

theorem scanR_clean_head (tok : String) (h : tok ∉ reservedTokens) (R : List String)
    (c v pk : Bool) :
    scanR (tok :: R) c v pk = some ⟨c, v, pk, false, false, false, tok :: R⟩ := by
  have h' : ¬(tok = "const") ∧ ¬(tok = "volatile") ∧ ¬(tok = "...") ∧ ¬(tok = "*") ∧
      ¬(tok = "&") ∧ ¬(tok = "&&") := by
    simpa [reservedTokens] using h
  obtain ⟨h1, h2, h3, h4, h5, h6⟩ := h'
  simp [scanR, h1, h2, h3, h4, h5, h6]

/-- The right scan over the reversed tokens of a clean spelling stops at
once (the last token of the spelling is not special). -/
theorem scanR_clean_last (T : List String) (hT : T ≠ [])
    (hclean : ∀ tok ∈ T, tok ∉ reservedTokens) (R : List String) (c v pk : Bool) :
    scanR (T.reverse ++ R) c v pk = some ⟨c, v, pk, false, false, false, T.reverse ++ R⟩ := by
  rcases List.eq_nil_or_concat T with rfl | ⟨L, b, rfl⟩
  · exact absurd rfl hT
  · have hrev : (L.concat b).reverse ++ R = b :: (L.reverse ++ R) := by simp
    rw [hrev, scanR_clean_head b (hclean b (by simp))]

theorem scanL_cv (T : List String) (c v : Bool) :
    scanL (((if c then ["const"] else []) ++ (if v then ["volatile"] else [])) ++ T)
      false false = scanL T c v := by
  cases c <;> cases v <;> rfl

theorem scanL_clean_head (T : List String) (hT : T ≠ [])
    (hclean : ∀ tok ∈ T, tok ∉ reservedTokens) (c v : Bool) :
    scanL T c v = some (c, v, T) := by
  cases T with
  | nil => exact absurd rfl hT
  | cons h0 t0 =>
    have h' : ¬(h0 = "const") ∧ ¬(h0 = "volatile") := by
      have := hclean h0 (by simp)
      constructor <;> (intro he; exact this (by simp [reservedTokens, he]))
    rw [scanL, if_neg h'.1, if_neg h'.2]

/-- Parsing the token sequence of a layer without indirection markers:
leading cv tokens, a clean spelling, a trailing pack marker. -/
theorem parse_base (s : String) (hs : cleanSpelling s = true) (c v pk : Bool) :
    ∀ fuel, (renderTokensCore (splitSpace s) c v false false false pk).length ≤ fuel →
      fromTokensGo fuel (renderTokensCore (splitSpace s) c v false false false pk) =
        some (.base s c v false false false pk) := by
  have hT : splitSpace s ≠ [] := splitSpace_ne_nil s
  have hclean : ∀ tok ∈ splitSpace s, tok ∉ reservedTokens := by
    intro tok htok
    have := List.all_eq_true.1 hs tok htok
    simpa using this
  have htok : renderTokensCore (splitSpace s) c v false false false pk =
      ((if c then ["const"] else []) ++ (if v then ["volatile"] else [])) ++
        (splitSpace s ++ (if pk then ["..."] else [])) := by
    simp [renderTokensCore, List.append_assoc]
  intro fuel hf
  rw [htok] at hf ⊢
  have hTlen : 0 < (splitSpace s).length := List.length_pos.2 hT
  have h1 : 1 ≤ fuel := by
    refine Nat.le_trans ?_ hf
    simp only [List.length_append]
    omega
  obtain ⟨n, rfl⟩ : ∃ n, fuel = n + 1 := ⟨fuel - 1, by omega⟩
  have hrev : ((((if c then ["const"] else []) ++ (if v then ["volatile"] else [])) ++
      (splitSpace s ++ (if pk then ["..."] else [])))).reverse =
      (if pk then ["..."] else []) ++ ((splitSpace s).reverse ++
        ((if v then ["volatile"] else []) ++ (if c then ["const"] else []))) := by
    cases c <;> cases v <;> cases pk <;> simp
  rw [fromTokensGo, hrev, scanR_pack, scanR_clean_last (splitSpace s) hT hclean]
  have hrev2 : ((splitSpace s).reverse ++
      ((if v then ["volatile"] else []) ++ (if c then ["const"] else []))).reverse =
      (((if c then ["const"] else []) ++ (if v then ["volatile"] else []))) ++
        splitSpace s := by
    cases c <;> cases v <;> simp
  simp only [Option.bind_eq_bind, Option.some_bind, Bool.or_self, Bool.or_false,
    Bool.false_or, if_neg]
  rw [hrev2, scanL_cv, scanL_clean_head (splitSpace s) hT hclean]
  simp [joinSpace_splitSpace, CppType.getSimplified]

/-- Parsing a pointer layer: the right scan consumes the pack marker, the
trailing cv tokens and the `*`, then parses the inner tokens recursively. -/
theorem parse_ptr (T : List String) (w : CppType)
    (hT : ∀ fuel, T.length ≤ fuel → fromTokensGo fuel T = some w) (c v pk : Bool) :
    ∀ fuel,
      (T ++ (["*"] ++ ((if c then ["const"] else []) ++
        ((if v then ["volatile"] else []) ++ (if pk then ["..."] else []))))).length ≤ fuel →
      fromTokensGo fuel
          (T ++ (["*"] ++ ((if c then ["const"] else []) ++
            ((if v then ["volatile"] else []) ++ (if pk then ["..."] else []))))) =
        some (CppType.getSimplified (.layer w c v false false true pk)) := by
  intro fuel hf
  have hlen : T.length + 1 ≤ fuel := by
    refine Nat.le_trans ?_ hf
    cases c <;> cases v <;> cases pk <;> simp
  obtain ⟨n, rfl⟩ : ∃ n, fuel = n + 1 := ⟨fuel - 1, by omega⟩
  have hrev : (T ++ (["*"] ++ ((if c then ["const"] else []) ++
      ((if v then ["volatile"] else []) ++ (if pk then ["..."] else []))))).reverse =
      (if pk then ["..."] else []) ++ ((if v then ["volatile"] else []) ++
        ((if c then ["const"] else []) ++ ("*" :: T.reverse))) := by
    cases c <;> cases v <;> cases pk <;> simp
  rw [fromTokensGo, hrev, scanR_pack, scanR_vol, scanR_cst, scanR_star_head]
  simp only [Option.bind_eq_bind, Option.some_bind, Bool.true_or, Bool.or_true, if_pos,
    List.reverse_reverse]
  rw [hT n (by omega)]
  rfl

/-- Parsing an lvalue-reference layer. -/
theorem parse_lref (T : List String) (w : CppType)
    (hT : ∀ fuel, T.length ≤ fuel → fromTokensGo fuel T = some w) (pk : Bool) :
    ∀ fuel, (T ++ (["&"] ++ (if pk then ["..."] else []))).length ≤ fuel →
      fromTokensGo fuel (T ++ (["&"] ++ (if pk then ["..."] else []))) =
        some (CppType.getSimplified (.layer w false false true false false pk)) := by
  intro fuel hf
  have hlen : T.length + 1 ≤ fuel := by
    refine Nat.le_trans ?_ hf
    cases pk <;> simp
  obtain ⟨n, rfl⟩ : ∃ n, fuel = n + 1 := ⟨fuel - 1, by omega⟩
  have hrev : (T ++ (["&"] ++ (if pk then ["..."] else []))).reverse =
      (if pk then ["..."] else []) ++ ("&" :: T.reverse) := by
    cases pk <;> simp
  rw [fromTokensGo, hrev, scanR_pack, scanR_amp_head]
  simp only [Option.bind_eq_bind, Option.some_bind, Bool.true_or, Bool.or_true,
    Bool.false_or, Bool.or_false, if_pos, List.reverse_reverse]
  rw [hT n (by omega)]
  rfl

/-- Parsing an rvalue-reference layer. -/
theorem parse_rref (T : List String) (w : CppType)
    (hT : ∀ fuel, T.length ≤ fuel → fromTokensGo fuel T = some w) (pk : Bool) :
    ∀ fuel, (T ++ (["&&"] ++ (if pk then ["..."] else []))).length ≤ fuel →
      fromTokensGo fuel (T ++ (["&&"] ++ (if pk then ["..."] else []))) =
        some (CppType.getSimplified (.layer w false false false true false pk)) := by
  intro fuel hf
  have hlen : T.length + 1 ≤ fuel := by
    refine Nat.le_trans ?_ hf
    cases pk <;> simp
  obtain ⟨n, rfl⟩ : ∃ n, fuel = n + 1 := ⟨fuel - 1, by omega⟩
  have hrev : (T ++ (["&&"] ++ (if pk then ["..."] else []))).reverse =
      (if pk then ["..."] else []) ++ ("&&" :: T.reverse) := by
    cases pk <;> simp
  rw [fromTokensGo, hrev, scanR_pack, scanR_ampamp_head]
  simp only [Option.bind_eq_bind, Option.some_bind, Bool.true_or, Bool.or_true,
    Bool.false_or, Bool.or_false, if_pos, List.reverse_reverse]
  rw [hT n (by omega)]
  rfl

theorem not_naked_flag {c v l r p pk : Bool}
    (hn : (!(c || v || l || r || p || pk)) = false) :
    (c || v || l || r || p || pk) = true := by
  cases hbb : (c || v || l || r || p || pk)
  · rw [hbb] at hn; cases hn
  · rfl

/-- Well-formed non-naked types are fixed points of the recursive
simplification pass. -/
theorem wf_simpAux : ∀ u : CppType, wf u = true → u.isNaked = false →
    CppType.simpAux u = .inr u := by
  intro u
  induction u with
  | base s c v l r p pk =>
    intro _ hn
    rw [CppType.isNaked] at hn
    rw [CppType.simpAux, if_pos (not_naked_flag hn)]
  | layer u c v l r p pk ih =>
    intro hw hn
    rw [CppType.isNaked] at hn
    have hw' : wf u = true ∧ u.isNaked = false := by
      have := hw
      rw [wf] at this
      simp only [Bool.and_eq_true, Bool.not_eq_true'] at this
      exact ⟨this.1.1.1, this.1.1.2⟩
    rw [CppType.simpAux, if_pos (not_naked_flag hn), ih hw'.1 hw'.2]

theorem getSimplified_layer_wf (u : CppType) (hw : wf u = true) (hn : u.isNaked = false)
    (c v l r p pk : Bool) (hflag : (c || v || l || r || p || pk) = true) :
    CppType.getSimplified (.layer u c v l r p pk) = .layer u c v l r p pk := by
  rw [CppType.getSimplified, if_pos hflag, wf_simpAux u hw hn]

theorem getSimplified_layer_naked_base (s : String) (c v l r p pk : Bool)
    (hflag : (c || v || l || r || p || pk) = true) :
    CppType.getSimplified
        (.layer (.base s false false false false false false) c v l r p pk) =
      .base s c v l r p pk := by
  rw [CppType.getSimplified, if_pos hflag]
  rfl

/-- For a well-formed type, parsing back its own token sequence with enough
fuel recovers exactly the type. -/
theorem fromTokensGo_renderTokens : ∀ t : CppType, wf t = true →
    ∀ fuel, (renderTokens t).length ≤ fuel →
      fromTokensGo fuel (renderTokens t) = some t := by
  intro t
  induction t with
  | base s c v l r p pk =>
    intro hw fuel hf
    have hw' : cleanSpelling s = true ∧ flagsOk c v l r p = true := by
      simpa [wf, Bool.and_eq_true] using hw
    have hinner : ∀ fuel', (splitSpace s).length ≤ fuel' →
        fromTokensGo fuel' (splitSpace s) =
          some (.base s false false false false false false) := by
      intro fuel' hfl
      have := parse_base s hw'.1 false false false fuel'
        (by simpa [renderTokensCore] using hfl)
      simpa [renderTokensCore] using this
    cases p <;> cases l <;> cases r
    · -- no indirection
      rw [renderTokens]
      exact parse_base s hw'.1 c v pk fuel (by simpa [renderTokens] using hf)
    · -- rvalue reference
      have hcv : c = false ∧ v = false := by
        have := hw'.2
        simp [flagsOk] at this
        exact this
      obtain ⟨rfl, rfl⟩ := hcv
      have hshape : renderTokens (CppType.base s false false false true false pk) =
          splitSpace s ++ (["&&"] ++ (if pk then ["..."] else [])) := by
        simp [renderTokens, renderTokensCore, List.append_assoc]
      rw [hshape] at hf ⊢
      rw [parse_rref (splitSpace s) _ hinner pk fuel hf,
        getSimplified_layer_naked_base s _ _ _ _ _ _ (by simp)]
    · -- lvalue reference
      have hcv : c = false ∧ v = false := by
        have := hw'.2
        simp [flagsOk] at this
        exact this
      obtain ⟨rfl, rfl⟩ := hcv
      have hshape : renderTokens (CppType.base s false false true false false pk) =
          splitSpace s ++ (["&"] ++ (if pk then ["..."] else [])) := by
        simp [renderTokens, renderTokensCore, List.append_assoc]
      rw [hshape] at hf ⊢
      rw [parse_lref (splitSpace s) _ hinner pk fuel hf,
        getSimplified_layer_naked_base s _ _ _ _ _ _ (by simp)]
    · -- lvalue and rvalue reference together: excluded
      have := hw'.2
      simp [flagsOk] at this
    · -- pointer
      have hshape : renderTokens (CppType.base s c v false false true pk) =
          splitSpace s ++ (["*"] ++ ((if c then ["const"] else []) ++
            ((if v then ["volatile"] else []) ++ (if pk then ["..."] else [])))) := by
        simp [renderTokens, renderTokensCore, List.append_assoc]
      rw [hshape] at hf ⊢
      rw [parse_ptr (splitSpace s) _ hinner c v pk fuel hf,
        getSimplified_layer_naked_base s _ _ _ _ _ _ (by simp)]
    · -- pointer with rvalue reference: excluded
      have := hw'.2
      simp [flagsOk] at this
    · -- pointer with lvalue reference: excluded
      have := hw'.2
      simp [flagsOk] at this
    · -- pointer with both references: excluded
      have := hw'.2
      simp [flagsOk] at this
  | layer u c v l r p pk ih =>
    intro hw fuel hf
    have hw' : (wf u = true ∧ u.isNaked = false) ∧ (p || l || r) = true ∧
        flagsOk c v l r p = true := by
      have := hw
      rw [wf] at this
      simp only [Bool.and_eq_true, Bool.not_eq_true'] at this
      exact ⟨⟨this.1.1.1, this.1.1.2⟩, this.1.2, this.2⟩
    have hinner : ∀ fuel', (renderTokens u).length ≤ fuel' →
        fromTokensGo fuel' (renderTokens u) = some u := ih hw'.1.1
    cases p <;> cases l <;> cases r
    · -- no indirection: excluded for layers
      simpa using hw'.2.1
    · -- rvalue reference
      have hcv : c = false ∧ v = false := by
        have := hw'.2.2
        simp [flagsOk] at this
        exact this
      obtain ⟨rfl, rfl⟩ := hcv
      have hshape : renderTokens (CppType.layer u false false false true false pk) =
          renderTokens u ++ (["&&"] ++ (if pk then ["..."] else [])) := by
        simp [renderTokens, renderTokensCore, List.append_assoc]
      rw [hshape] at hf ⊢
      rw [parse_rref (renderTokens u) u hinner pk fuel hf,
        getSimplified_layer_wf u hw'.1.1 hw'.1.2 _ _ _ _ _ _ (by simp)]
    · -- lvalue reference
      have hcv : c = false ∧ v = false := by
        have := hw'.2.2
        simp [flagsOk] at this
        exact this
      obtain ⟨rfl, rfl⟩ := hcv
      have hshape : renderTokens (CppType.layer u false false true false false pk) =
          renderTokens u ++ (["&"] ++ (if pk then ["..."] else [])) := by
        simp [renderTokens, renderTokensCore, List.append_assoc]
      rw [hshape] at hf ⊢
      rw [parse_lref (renderTokens u) u hinner pk fuel hf,
        getSimplified_layer_wf u hw'.1.1 hw'.1.2 _ _ _ _ _ _ (by simp)]
    · have := hw'.2.2
      simp [flagsOk] at this
    · -- pointer
      have hshape : renderTokens (CppType.layer u c v false false true pk) =
          renderTokens u ++ (["*"] ++ ((if c then ["const"] else []) ++
            ((if v then ["volatile"] else []) ++ (if pk then ["..."] else [])))) := by
        simp [renderTokens, renderTokensCore, List.append_assoc]
      rw [hshape] at hf ⊢
      rw [parse_ptr (renderTokens u) u hinner c v pk fuel hf,
        getSimplified_layer_wf u hw'.1.1 hw'.1.2 _ _ _ _ _ _ (by simp)]
    · have := hw'.2.2
      simp [flagsOk] at this
    · have := hw'.2.2
      simp [flagsOk] at this
    · have := hw'.2.2
      simp [flagsOk] at this

/-- Tokenizing the rendered text of one layer yields the layer's token
sequence. -/
theorem splitSpace_renderCore (s : String) (c v l r p pk : Bool) :
    splitSpace (CppType.renderCore s c v l r p pk) =
      renderTokensCore (splitSpace s) c v l r p pk := by
  cases p <;> cases l <;> cases r <;> cases c <;> cases v <;> cases pk <;>
    simp [CppType.renderCore, renderTokensCore, splitSpace_amp, splitSpace_ampamp,
      splitSpace_star, splitSpace_const_suffix, splitSpace_volatile_suffix,
      splitSpace_dots, splitSpace_const_prefix, splitSpace_volatile_prefix,
      splitSpace_const_volatile_prefix, str_append_empty, str_empty_append,
      List.append_assoc]

/-- Tokenizing the rendered text of a `Type` yields its token sequence. -/
theorem splitSpace_render : ∀ t : CppType,
    splitSpace (CppType.render t) = renderTokens t := by
  intro t
  induction t with
  | base s c v l r p pk => exact splitSpace_renderCore s c v l r p pk
  | layer u c v l r p pk ih =>
    rw [CppType.render, splitSpace_renderCore, ih, renderTokens]

/-- A non-naked `Type` on which the render/tokenize/parse round trip does not
preserve the rendered text: `doubleConstRef` stores `const` both on the inner
spelling layer and on the reference layer, renders as `const const int &`, and
parses back to a `Type` rendering `const int &`. -/
theorem render_parse_roundtrip_counterexample :
    doubleConstRef.isNaked = false ∧
      (fromTokens (splitSpace (CppType.render doubleConstRef))).map CppType.render ≠
        some (CppType.render doubleConstRef) := by decide

/-- C5: for every well-formed `Type` t (clean token spelling, legal qualifier
flags per layer, no naked inner layers), tokenizing the rendered text of t and
parsing the tokens with `Type.from_tokens` produces a `Type` (in fact t itself)
whose rendered text equals the rendered text of t. -/
theorem render_parse_roundtrip (t : CppType) (hw : wf t = true) :
    ∃ u, fromTokens (splitSpace (CppType.render t)) = some u ∧
      CppType.render u = CppType.render t := by
  refine ⟨t, ?_, rfl⟩
  rw [splitSpace_render, fromTokens]
  exact fromTokensGo_renderTokens t hw (renderTokens t).length le_rfl

/-- Witness: the round trip at the concrete type `const float &`. -/
theorem render_parse_roundtrip_witness :
    wf constFloatRef = true ∧
      ∃ u, fromTokens (splitSpace (CppType.render constFloatRef)) = some u ∧
        CppType.render u = CppType.render constFloatRef :=
  ⟨by decide, render_parse_roundtrip constFloatRef (by decide)⟩

end DrMock
